import Mathlib

/-
Shallow embedding of the book-catalog core:
  * the client-side query engine `filteredBooks` (BooksExplorer, with its
    text / genre / price / rating filter stages and comparator-based sort),
  * the optimistic-delete controller `handleDeleteBook` / `revalidateBooks`,
  * the server action `deleteBookAction`,
  * the search UI wiring `handleFilterChange` and the (spec-modelled)
    debounce of the free-text term.

JavaScript semantics are modelled explicitly: numbers as `Rat` (with `NaN`
as `Option.none` where it can arise, namely from `Date.parse`), strings as
`String`, missing fields as `Option`, `??` as `Option.getD`, string
truthiness as "nonempty", number truthiness as "nonzero", and
`Array.prototype.sort` as a stable comparator sort in which a `NaN`
comparator result counts as `+0` (ES2023 section 23.1.3.30.2 SortCompare).
-/

namespace BookCatalog

/-- The `IBook` record from `src/types/index.ts`, restricted to the fields
the query engine and controller read.  The engine defensively applies
`?? ''` / `?? 0` to every field it touches, so each field is modelled as
optional. -/
structure IBook where
  id : Int
  title : Option String := none
  author : Option String := none
  price : Option Rat := none
  rating : Option Rat := none
  genre : Option String := none
  isbn : Option String := none
  publishedDate : Option String := none
deriving DecidableEq, Repr

/-- The `sortBy` values of `FilterOptions` from `BookSearch`. -/
inductive SortKey where
  | title
  | author
  | price
  | rating
  | date
deriving DecidableEq, Repr

/-- The `sortOrder` values of `FilterOptions` from `BookSearch`. -/
inductive SortOrder where
  | asc
  | desc
deriving DecidableEq, Repr

/-- `FilterOptions` from `BookSearch`: every field optional. -/
structure FilterOptions where
  genre : Option String := none
  priceRange : Option (Rat × Rat) := none
  rating : Option Rat := none
  sortBy : Option SortKey := none
  sortOrder : Option SortOrder := none
deriving DecidableEq, Repr

/-- An empty `FilterOptions` literal (`{}` in the source). -/
def noFilters : FilterOptions := {}

/-! ## JavaScript string primitives -/

/-- Model of `String.prototype.toLowerCase` (exact on the ASCII range this
catalog uses; `Char.toLower` lowercases `A`-`Z`). -/
def jsToLower (s : String) : String :=
  ⟨s.data.map Char.toLower⟩

/-- Whitespace recognised by the model of `String.prototype.trim` (the
JS method also trims further Unicode space characters; none occur here). -/
def isJsWhitespace (c : Char) : Bool :=
  c = ' ' || c = '\t' || c = '\n' || c = '\r'

/-- Model of `String.prototype.trim`. -/
def jsTrim (s : String) : String :=
  ⟨((s.data.dropWhile isJsWhitespace).reverse.dropWhile isJsWhitespace).reverse⟩

/-- Does `l` start with `pre`? (helper for the substring test). -/
def listStartsWith : List Char → List Char → Bool
  | _, [] => true
  | [], _ :: _ => false
  | h :: hs, n :: ns => h = n && listStartsWith hs ns

/-- Model of `String.prototype.includes` on the underlying character
lists: some suffix of `hay` starts with `needle`. -/
def listContainsSub : List Char → List Char → Bool
  | [], needle => needle.isEmpty
  | h :: hs, needle => listStartsWith (h :: hs) needle || listContainsSub hs needle

/-- Model of `a.localeCompare(b)`: a total order on strings returning a
negative, zero or positive number.  Modelled as code-point lexicographic
comparison, which agrees with the default locale order on the ASCII data
this catalog uses. -/
def charListCompare : List Char → List Char → Int
  | [], [] => 0
  | [], _ :: _ => -1
  | _ :: _, [] => 1
  | a :: as, b :: bs =>
      if a.toNat < b.toNat then -1
      else if b.toNat < a.toNat then 1
      else charListCompare as bs

/-- `localeCompare` lifted to `String`. -/
def localeCompare (a b : String) : Int :=
  charListCompare a.data b.data

/-! ## Date parsing

`Date.parse` as used by the date sort, restricted to ISO `YYYY-MM-DD` date
strings, which JS interprets as UTC midnight and returns in milliseconds
since the epoch; any other string is unparsable and yields `NaN`,
modelled as `none`. -/

/-- Civil-date to days-since-epoch (proleptic Gregorian), for 4-digit
years. -/
def daysFromCivil (y m d : Int) : Int :=
  let y' : Int := y - (if m ≤ 2 then 1 else 0)
  let era : Int := (if 0 ≤ y' then y' else y' - 399) / 400
  let yoe : Int := y' - era * 400
  let mp : Int := (m + 9) % 12
  let doy : Int := (153 * mp + 2) / 5 + d - 1
  let doe : Int := yoe * 365 + yoe / 4 - yoe / 100 + doy
  era * 146097 + doe - 719468

/-- Days in a month of the (leap-year aware) Gregorian calendar. -/
def daysInMonth (y m : Int) : Int :=
  if m = 2 then
    if y % 4 = 0 && (y % 100 ≠ 0 || y % 400 = 0) then 29 else 28
  else if m = 4 || m = 6 || m = 9 || m = 11 then 30
  else 31

/-- Numeric value of a decimal digit character. -/
def digitVal (c : Char) : Int :=
  (c.toNat : Int) - 48

/-- Model of `Date.parse` on ISO `YYYY-MM-DD` strings (milliseconds since
the epoch, UTC midnight); `none` models `NaN` for every other input. -/
def dateParse (s : String) : Option Int :=
  match s.data with
  | [y1, y2, y3, y4, sep1, m1, m2, sep2, d1, d2] =>
      if (sep1 = '-' && sep2 = '-' &&
          y1.isDigit && y2.isDigit && y3.isDigit && y4.isDigit &&
          m1.isDigit && m2.isDigit && d1.isDigit && d2.isDigit) then
        let y := 1000 * digitVal y1 + 100 * digitVal y2 + 10 * digitVal y3 + digitVal y4
        let m := 10 * digitVal m1 + digitVal m2
        let d := 10 * digitVal d1 + digitVal d2
        if 1 ≤ m && m ≤ 12 && 1 ≤ d && d ≤ daysInMonth y m then
          some (86400000 * daysFromCivil y m d)
        else none
      else none
  | _ => none

/-- The date key of the comparator: `a.publishedDate ? Date.parse(a.publishedDate) : 0`.
A missing or empty (falsy) `publishedDate` gives `0`; a nonempty string is
parsed, giving `NaN` (`none`) when unparsable. -/
def dateValue (b : IBook) : Option Rat :=
  match b.publishedDate with
  | none => some 0
  | some s => if s = "" then some 0 else (dateParse s).map (fun k => (k : Rat))

/-! ## The sort

`[...result].sort(comparator)`: ES2019 requires the sort to be stable, and
SortCompare coerces a `NaN` comparator result to `+0`.  The model is a
stable insertion sort consuming `(cmp a b).getD 0`: for a consistent
comparator this is the unique stable sorted order mandated by the
standard. -/

/-- Insert `x` (which precedes every element of the list in the input)
before the first element it does not compare strictly greater than. -/
def jsInsert (cmp : IBook → IBook → Option Rat) (x : IBook) : List IBook → List IBook
  | [] => [x]
  | y :: ys =>
      if 0 < (cmp x y).getD 0 then y :: jsInsert cmp x ys
      else x :: y :: ys

/-- Stable comparator sort modelling `Array.prototype.sort`. -/
def jsSort (cmp : IBook → IBook → Option Rat) : List IBook → List IBook
  | [] => []
  | x :: xs => jsInsert cmp x (jsSort cmp xs)

/-- The comparator of the sort stage, one case per `sortBy` value;
`ord` is `-1` for `desc` and `1` otherwise.  Only the `date` case can
produce `NaN` (`none`), via `Date.parse`. -/
def bookCmp (k : SortKey) (ord : Rat) (a b : IBook) : Option Rat :=
  match k with
  | .author => some ((localeCompare (a.author.getD "") (b.author.getD "") : Rat) * ord)
  | .price => some ((a.price.getD 0 - b.price.getD 0) * ord)
  | .rating => some ((a.rating.getD 0 - b.rating.getD 0) * ord)
  | .date => do
      let x ← dateValue a
      let y ← dateValue b
      pure ((x - y) * ord)
  | .title => some ((localeCompare (a.title.getD "") (b.title.getD "") : Rat) * ord)

/-! ## The query engine (`filteredBooks` in `BooksExplorer`) -/

/-- `query.trim().toLowerCase()` (the `normalizedQuery` memo). -/
def normalizeQuery (q : String) : String :=
  jsToLower (jsTrim q)

/-- One record's text-search test: the lowercased concatenation
`title + " " + author + " " + isbn` (fields defaulted to `''`) contains
the normalized query as a substring. -/
def matchesQuery (nq : String) (b : IBook) : Bool :=
  let haystack := jsToLower ((b.title.getD "") ++ " " ++ (b.author.getD "") ++ " " ++ (b.isbn.getD ""))
  listContainsSub haystack.data nq.data

/-- Text filter stage: active only when the normalized query is truthy
(nonempty). -/
def textStage (nq : String) (l : List IBook) : List IBook :=
  if nq = "" then l else l.filter (matchesQuery nq)

/-- Genre filter stage: active when `filters.genre` is truthy; compares
lowercased genre (defaulted to `''`) with the lowercased filter value. -/
def genreStage (g : Option String) (l : List IBook) : List IBook :=
  match g with
  | none => l
  | some gv =>
      if gv = "" then l
      else l.filter (fun b => jsToLower (b.genre.getD "") = jsToLower gv)

/-- Price bound test of the price stage (both bounds are numbers whenever
`priceRange` is set, so both checks apply). -/
def pricePasses (mn mx : Rat) (b : IBook) : Bool :=
  let price := b.price.getD 0
  mn ≤ price && price ≤ mx

/-- Price filter stage: active when `priceRange` is set and at least one
bound is truthy (nonzero). -/
def priceStage (pr : Option (Rat × Rat)) (l : List IBook) : List IBook :=
  match pr with
  | none => l
  | some (mn, mx) =>
      if mn ≠ 0 || mx ≠ 0 then l.filter (pricePasses mn mx) else l

/-- Rating filter stage: active when `filters.rating` is truthy (nonzero);
keeps records with `(rating ?? 0) >= filters.rating`. -/
def ratingStage (r : Option Rat) (l : List IBook) : List IBook :=
  match r with
  | none => l
  | some rv =>
      if rv ≠ 0 then l.filter (fun b => rv ≤ b.rating.getD 0) else l

/-- Sort stage: runs only when `filters.sortBy` is set (truthy); the
order multiplier is `-1` exactly when `sortOrder === 'desc'`.  It reads
only `filters.sortBy` and `filters.sortOrder`, taken as the two
arguments. -/
def sortStage (sb : Option SortKey) (so : Option SortOrder) (l : List IBook) : List IBook :=
  match sb with
  | none => l
  | some k =>
      let ord : Rat := if so = some .desc then -1 else 1
      jsSort (bookCmp k ord) l

/-- The query engine `filteredBooks`: text, genre, price, rating filters in
order, then the sort stage. -/
def filteredBooks (books : List IBook) (query : String) (fs : FilterOptions) : List IBook :=
  sortStage fs.sortBy fs.sortOrder (ratingStage fs.rating (priceStage fs.priceRange
    (genreStage fs.genre (textStage (normalizeQuery query) books))))

/-! ## Properties of the sort model -/

/-- Membership in an insertion. -/
theorem mem_jsInsert {cmp : IBook → IBook → Option Rat} {x a : IBook} :
    ∀ {l : List IBook}, a ∈ jsInsert cmp x l ↔ a = x ∨ a ∈ l := by
  intro l
  induction l with
  | nil => simp [jsInsert]
  | cons y ys ih =>
      simp only [jsInsert]
      split
      · simp only [List.mem_cons, ih]
        tauto
      · simp [List.mem_cons]

/-- The sort permutes nothing in and nothing out. -/
theorem mem_jsSort {cmp : IBook → IBook → Option Rat} {a : IBook} :
    ∀ {l : List IBook}, a ∈ jsSort cmp l ↔ a ∈ l := by
  intro l
  induction l with
  | nil => simp [jsSort]
  | cons x xs ih => simp [jsSort, mem_jsInsert, ih]

/-- Inserting into a list sorted by a key keeps it sorted, provided the
comparator agrees with key differences against the elements present. -/
theorem jsInsert_pairwise_key {cmp : IBook → IBook → Option Rat} {key : IBook → Rat}
    {x : IBook} : ∀ {l : List IBook},
    l.Pairwise (fun a b => key a ≤ key b) →
    (∀ b ∈ l, (cmp x b).getD 0 = key x - key b) →
    (jsInsert cmp x l).Pairwise (fun a b => key a ≤ key b) := by
  intro l
  induction l with
  | nil =>
      intro _ _
      simp [jsInsert]
  | cons y ys ih =>
      intro hl hx
      have hxy : (cmp x y).getD 0 = key x - key y := hx y (by simp)
      simp only [jsInsert]
      by_cases h : 0 < (cmp x y).getD 0
      · rw [if_pos h]
        have hyx : key y ≤ key x := by
          rw [hxy] at h
          linarith
        refine List.pairwise_cons.mpr ⟨?_, ?_⟩
        · intro z hz
          rcases mem_jsInsert.mp hz with rfl | hz2
          · exact hyx
          · exact (List.pairwise_cons.mp hl).1 z hz2
        · exact ih (List.pairwise_cons.mp hl).2 (fun b hb => hx b (by simp [hb]))
      · rw [if_neg h]
        have hxy2 : key x ≤ key y := by
          rw [hxy] at h
          linarith
        refine List.pairwise_cons.mpr ⟨?_, hl⟩
        intro z hz
        rcases List.mem_cons.mp hz with rfl | hz2
        · exact hxy2
        · exact le_trans hxy2 ((List.pairwise_cons.mp hl).1 z hz2)

/-- Whenever the comparator agrees with the differences of a numeric key
on the elements of `l`, the sort output is nondecreasing in that key. -/
theorem jsSort_pairwise_key {cmp : IBook → IBook → Option Rat} {key : IBook → Rat} :
    ∀ {l : List IBook},
    (∀ a ∈ l, ∀ b ∈ l, (cmp a b).getD 0 = key a - key b) →
    (jsSort cmp l).Pairwise (fun a b => key a ≤ key b) := by
  intro l
  induction l with
  | nil =>
      intro _
      simp [jsSort]
  | cons x xs ih =>
      intro h
      simp only [jsSort]
      apply jsInsert_pairwise_key
      · exact ih (fun a ha b hb => h a (by simp [ha]) b (by simp [hb]))
      · intro b hb
        exact h x (by simp) b (by simp [mem_jsSort.mp hb])

/-- Insertion never moves the new element past an element its comparator
ties with: the sublist satisfying `p` gains `x` at the front when `p x`,
provided `p`-elements always tie with `x`. -/
theorem jsInsert_filter {cmp : IBook → IBook → Option Rat} {p : IBook → Bool} {x : IBook} :
    ∀ {l : List IBook},
    (∀ b ∈ l, p x = true → p b = true → (cmp x b).getD 0 = 0) →
    (jsInsert cmp x l).filter p = if p x then x :: l.filter p else l.filter p := by
  intro l
  induction l with
  | nil =>
      intro _
      simp only [jsInsert, List.filter_cons, List.filter_nil]
  | cons y ys ih =>
      intro hx
      have ihres := ih (fun b hb => hx b (by simp [hb]))
      simp only [jsInsert]
      by_cases h : 0 < (cmp x y).getD 0
      · rw [if_pos h]
        have hnotboth : ¬(p x = true ∧ p y = true) := by
          rintro ⟨h1, h2⟩
          rw [hx y (by simp) h1 h2] at h
          exact lt_irrefl 0 h
        by_cases hpx : p x = true
        · have hpy : p y = false := by
            cases hq : p y with
            | false => rfl
            | true => exact absurd ⟨hpx, hq⟩ hnotboth
          simp [List.filter_cons, hpy, hpx, ihres]
        · simp [List.filter_cons, hpx, ihres]
      · rw [if_neg h]
        by_cases hpx : p x = true
        · simp [List.filter_cons, hpx]
        · simp [List.filter_cons, hpx]

/-- Stability of the sort on tying classes: if all elements satisfying
`p` compare as ties with each other, the subsequence of `p`-elements is
unchanged by sorting. -/
theorem jsSort_filter {cmp : IBook → IBook → Option Rat} {p : IBook → Bool}
    (hp : ∀ a b : IBook, p a = true → p b = true → (cmp a b).getD 0 = 0) :
    ∀ (l : List IBook), (jsSort cmp l).filter p = l.filter p := by
  intro l
  induction l with
  | nil => rfl
  | cons x xs ih =>
      simp only [jsSort]
      rw [jsInsert_filter (fun b _ => hp x b), ih, List.filter_cons]

/-! ## The optimistic-delete controller (`BooksExplorer`)

`handleDeleteBook` captures the current collection, removes the target
synchronously, then awaits `deleteBookAction(id)`; on a failure result it
rolls back and throws `new Error(result.error || 'Delete failed')`; on an
exception it rolls back and rethrows; on success it awaits
`revalidateBooks()`.  The two network calls are modelled by their
outcomes, passed in as parameters. -/

/-- Outcome of `await deleteBookAction(id)`: a result object
`{success: true}` or `{success: false, error?}`, or a thrown exception. -/
inductive DeleteOutcome where
  | success
  | failure (error : Option String)
  | exn (msg : String)
deriving DecidableEq, Repr

/-- Outcome of the reconciliation `fetch('/api/books', ...)`: an ok
response whose JSON body may or may not carry `data`, a non-ok response,
or a network error (rejected promise). -/
inductive FetchOutcome where
  | ok (data : Option (List IBook))
  | notOk
  | networkError
deriving DecidableEq, Repr

/-- The controller state the claims observe: the `books` and
`isRefreshing` `useState` cells of `BooksExplorer`. -/
structure ExplorerState where
  books : List IBook
  isRefreshing : Bool
deriving DecidableEq, Repr

/-- `revalidateBooks`: sets `isRefreshing` true, fetches; on an ok
response replaces `books` with `freshBooks.data || []`; a non-ok response
or a caught network error leaves `books` unchanged; the `finally` block
always resets `isRefreshing` to false.  Never throws. -/
def revalidateBooks (f : FetchOutcome) (s : ExplorerState) : ExplorerState :=
  match f with
  | .ok d => { books := d.getD [], isRefreshing := false }
  | .notOk => { s with isRefreshing := false }
  | .networkError => { s with isRefreshing := false }

/-- The synchronous optimistic step:
`setBooks(prevBooks => prevBooks.filter(book => book.id !== id))`. -/
def optimisticRemove (books : List IBook) (id : Int) : List IBook :=
  books.filter (fun b => b.id ≠ id)

/-- `result.error || 'Delete failed'` (JS `||`: an absent or empty error
string falls back to the default). -/
def jsOrElse (e : Option String) (d : String) : String :=
  match e with
  | none => d
  | some s => if s = "" then d else s

/-- `handleDeleteBook`: snapshot, synchronous optimistic removal, then the
delete call; failure result → rollback and throw
`Error(result.error || 'Delete failed')`; exception → rollback (in the
catch block) and rethrow; success → reconciliation via
`revalidateBooks`.  Returns the final state and the promise outcome seen
by the caller. -/
def handleDeleteBook (s : ExplorerState) (id : Int) (del : DeleteOutcome)
    (f : FetchOutcome) : ExplorerState × Except String Unit :=
  let originalBooks := s.books
  let s1 : ExplorerState := { s with books := optimisticRemove s.books id }
  match del with
  | .success => (revalidateBooks f s1, .ok ())
  | .failure e => ({ s1 with books := originalBooks }, .error (jsOrElse e "Delete failed"))
  | .exn m => ({ s1 with books := originalBooks }, .error m)

/-- `deleteBookAction` (`src/lib/actions/deleteBookAction.ts`): wraps the
remote `deleteBook(id)`; success yields `{success: true}`, any thrown
error is caught and becomes
`{success: false, error: 'Failed to delete book'}`. -/
def deleteBookAction (remote : Except String Unit) : DeleteOutcome :=
  match remote with
  | .ok _ => .success
  | .error _ => .failure (some "Failed to delete book")

/-! ## The search UI (`BookSearch`) -/

/-- The debounce delay passed to `useDebounce(searchQuery, 300)`. -/
def searchDebounceMs : Nat := 300

/-- Modelled from the spec: the `useDebounce` hook.  `BookSearch` imports
it from `@/lib/hooks/useDebounce`, whose implementation is not among the
provided sources.  Per the spec, each new input cancels and replaces the
pending delayed task, so an update at time `t` is applied at
`t + delay` unless a later update arrives before `t + delay`; the last
update is always applied.  Input: the update events in strictly
increasing time order; output: the `(time, value)` pairs at which the
debounced value is applied. -/
def debounceApply (delay : Nat) : List (Nat × String) → List (Nat × String)
  | [] => []
  | (t, v) :: rest =>
      match rest with
      | [] => [(t + delay, v)]
      | (t2, _) :: _ =>
          if t2 < t + delay then debounceApply delay rest
          else (t + delay, v) :: debounceApply delay rest

/-- A single structured-filter change event in `BookSearch`. -/
inductive FilterUpdate where
  | genre (v : Option String)
  | priceRange (v : Option (Rat × Rat))
  | rating (v : Option Rat)
  | sortBy (v : Option SortKey)
  | sortOrder (v : Option SortOrder)
deriving DecidableEq, Repr

/-- `{ ...filters, [key]: value }`. -/
def setFilter (fs : FilterOptions) : FilterUpdate → FilterOptions
  | .genre v => { fs with genre := v }
  | .priceRange v => { fs with priceRange := v }
  | .rating v => { fs with rating := v }
  | .sortBy v => { fs with sortBy := v }
  | .sortOrder v => { fs with sortOrder := v }

/-- `handleFilterChange` from `BookSearch`: computes the new filters and
calls `onFilter(newFilters)` in the same synchronous step (no debounce).
Returns the new state together with the value emitted to `onFilter`. -/
def handleFilterChange (fs : FilterOptions) (u : FilterUpdate) :
    FilterOptions × FilterOptions :=
  let newFilters := setFilter fs u
  (newFilters, newFilters)

/-! ## Auxiliary facts and example records -/

/-- Comparing a character list with itself yields 0. -/
theorem charListCompare_self : ∀ cs : List Char, charListCompare cs cs = 0 := by
  intro cs
  induction cs with
  | nil => rfl
  | cons c cs ih =>
      simp only [charListCompare]
      rw [if_neg (lt_irrefl _), if_neg (lt_irrefl _)]
      exact ih

/-- `a.localeCompare(a)` is 0. -/
theorem localeCompare_self (s : String) : localeCompare s s = 0 :=
  charListCompare_self s.data

/-- The comparator key of the date sort, with the sort's `NaN → +0`
coercion applied. -/
def dateKey (b : IBook) : Rat :=
  (dateValue b).getD 0

/-- Example record `A(id=1)` of the optimistic-delete scenario. -/
def bookA : IBook := { id := 1, title := some "A" }

/-- Example record `B(id=2)` of the optimistic-delete scenario. -/
def bookB : IBook := { id := 2, title := some "B" }

/-- Example record titled `"b"` (listed first). -/
def bookTb : IBook := { id := 1, title := some "b" }

/-- Example record titled `"a"` (listed second). -/
def bookTa : IBook := { id := 2, title := some "a" }

/-- The three records of the text-filter example. -/
def alphaBooks : List IBook :=
  [{ id := 1, title := some "Alpha" }, { id := 2, title := some "Beta" },
   { id := 3, title := some "alphabet" }]

/-- A record with a valid ISO date (positive timestamp). -/
def bookV : IBook := { id := 10, publishedDate := some "2020-01-01" }

/-- A record with a nonempty unparsable date. -/
def bookU : IBook := { id := 11, publishedDate := some "garbage" }

/-- A record with a missing date. -/
def bookM : IBook := { id := 12 }

/-- A record priced exactly 0. -/
def zeroPriceBook : IBook := { id := 5, price := some 0 }

/-- Filter options sorting by date, ascending (default order). -/
def dateAscFilters : FilterOptions := { sortBy := some .date }

/-- Filter options sorting by date, descending. -/
def dateDescFilters : FilterOptions := { sortBy := some .date, sortOrder := some .desc }

/-! ## Claims -/

/-- C1: for the collection `[A(id=1), B(id=2)]`, `handleDeleteBook 1`
removes A synchronously (the optimistic step already yields `[B]`); if
the remote delete fails — failure result or exception — the final
collection is the original `[A, B]` and an error is raised to the
caller; if it succeeds and the reconciliation fetch returns `[B]`, the
final collection is `[B]`. -/
theorem c1_optimistic_delete_scenario :
    optimisticRemove [bookA, bookB] 1 = [bookB]
    ∧ (∀ (e : Option String) (f : FetchOutcome),
        (handleDeleteBook ⟨[bookA, bookB], false⟩ 1 (.failure e) f).1.books = [bookA, bookB]
        ∧ ∃ msg, (handleDeleteBook ⟨[bookA, bookB], false⟩ 1 (.failure e) f).2 = .error msg)
    ∧ (∀ (m : String) (f : FetchOutcome),
        (handleDeleteBook ⟨[bookA, bookB], false⟩ 1 (.exn m) f).1.books = [bookA, bookB]
        ∧ (handleDeleteBook ⟨[bookA, bookB], false⟩ 1 (.exn m) f).2 = .error m)
    ∧ handleDeleteBook ⟨[bookA, bookB], false⟩ 1 .success (.ok (some [bookB]))
        = (⟨[bookB], false⟩, .ok ()) := by
  refine ⟨by decide, ?_, ?_, rfl⟩
  · intro e f
    exact ⟨rfl, ⟨jsOrElse e "Delete failed", rfl⟩⟩
  · intro m f
    exact ⟨rfl, rfl⟩

/-- C2 (counterexample): with no `sortBy` set, the engine applies no sort
at all, so the collection `[title "b", title "a"]` is returned in its
original order even though its first title compares strictly greater
than its second — refuting the claimed default title-ascending sort for
an empty `QuerySpec`. -/
theorem c2_counterexample :
    filteredBooks [bookTb, bookTa] "" noFilters = [bookTb, bookTa]
    ∧ 0 < localeCompare (bookTb.title.getD "") (bookTa.title.getD "") := by
  exact ⟨by decide, by decide⟩

/-- C2 (amended): with an empty `QuerySpec` the engine returns all
records of the collection unchanged, in their original order; the sort
stage is skipped entirely because `filters.sortBy` is unset (the
title-sort default applies only inside the comparator, which runs only
when `sortBy` is set). -/
theorem c2_amended (books : List IBook) :
    filteredBooks books "" noFilters = books := rfl

/-- C3 (counterexample): a record with a nonempty unparsable
`publishedDate` is not treated as timestamp 0 — its date key is `NaN`
(`none`), every comparison against it is coerced to a tie, and so it
keeps its position after a record with a valid positive-timestamp date
under ascending date sort, instead of sorting before it. -/
theorem c3_counterexample :
    filteredBooks [bookV, bookU] "" dateAscFilters = [bookV, bookU]
    ∧ dateValue bookU = none
    ∧ dateValue bookV = some ((1577836800000 : Int) : Rat)
    ∧ (0 : Rat) < ((1577836800000 : Int) : Rat) := by
  refine ⟨by decide, by decide, by decide, by norm_num⟩

/-- C3 (amended): when every record's `publishedDate` is missing (treated
as timestamp 0) or parses to a timestamp, the date sort output is
nondecreasing in the date key ascending and nonincreasing descending; in
particular a record with a missing date (key 0) sorts before all records
with positive-timestamp dates ascending, and after all of them
descending.  (Records with nonempty unparsable dates are excluded: their
comparisons are `NaN`, treated as ties.) -/
theorem c3_amended (l : List IBook) (h : ∀ b ∈ l, (dateValue b).isSome = true) :
    (filteredBooks l "" dateAscFilters).Pairwise (fun a b => dateKey a ≤ dateKey b)
    ∧ (filteredBooks l "" dateDescFilters).Pairwise (fun a b => dateKey b ≤ dateKey a) := by
  constructor
  · show (jsSort (bookCmp .date 1) l).Pairwise (fun a b => dateKey a ≤ dateKey b)
    apply jsSort_pairwise_key
    intro a ha b hb
    obtain ⟨ka, hka⟩ := Option.isSome_iff_exists.mp (h a ha)
    obtain ⟨kb, hkb⟩ := Option.isSome_iff_exists.mp (h b hb)
    simp [bookCmp, hka, hkb, dateKey]
  · have base : (jsSort (bookCmp .date (-1)) l).Pairwise
        (fun a b => (fun c => -dateKey c) a ≤ (fun c => -dateKey c) b) := by
      apply jsSort_pairwise_key
      intro a ha b hb
      obtain ⟨ka, hka⟩ := Option.isSome_iff_exists.mp (h a ha)
      obtain ⟨kb, hkb⟩ := Option.isSome_iff_exists.mp (h b hb)
      simp [bookCmp, hka, hkb, dateKey]
      ring
    show (jsSort (bookCmp .date (-1)) l).Pairwise (fun a b => dateKey b ≤ dateKey a)
    exact base.imp (fun hab => by simpa using hab)

/-- Witness for C3 (amended) at the collection `[bookV, bookM]`. -/
theorem c3_amended_witness :
    (filteredBooks [bookV, bookM] "" dateAscFilters).Pairwise
      (fun a b => dateKey a ≤ dateKey b)
    ∧ (filteredBooks [bookV, bookM] "" dateDescFilters).Pairwise
      (fun a b => dateKey b ≤ dateKey a) :=
  c3_amended [bookV, bookM] (by decide)

/-- C4: when the delete call yields an explicit failure result with a
nonempty reason, or throws, `handleDeleteBook` restores the pre-delete
snapshot and rejects with exactly that reason; composed with
`deleteBookAction`, a remote failure surfaces its reason
`"Failed to delete book"`. -/
theorem c4_failure_rollback_reason (s : ExplorerState) (id : Int) (f : FetchOutcome)
    (r : String) (hr : r ≠ "") :
    handleDeleteBook s id (.failure (some r)) f = (s, .error r)
    ∧ handleDeleteBook s id (.exn r) f = (s, .error r)
    ∧ (∀ remoteMsg, handleDeleteBook s id (deleteBookAction (.error remoteMsg)) f
        = (s, .error "Failed to delete book")) := by
  refine ⟨?_, rfl, fun remoteMsg => rfl⟩
  show ((⟨s.books, s.isRefreshing⟩ : ExplorerState), Except.error (jsOrElse (some r) "Delete failed"))
    = (s, Except.error r)
  rw [show jsOrElse (some r) "Delete failed" = r by simp [jsOrElse, hr]]

/-- Witness for C4 at a one-record collection and reason `"boom"`. -/
theorem c4_failure_rollback_reason_witness :
    handleDeleteBook ⟨[bookA], false⟩ 1 (.failure (some "boom")) .notOk
      = (⟨[bookA], false⟩, .error "boom")
    ∧ handleDeleteBook ⟨[bookA], false⟩ 1 (.exn "boom") .notOk
      = (⟨[bookA], false⟩, .error "boom")
    ∧ (∀ remoteMsg, handleDeleteBook ⟨[bookA], false⟩ 1 (deleteBookAction (.error remoteMsg)) .notOk
        = (⟨[bookA], false⟩, .error "Failed to delete book")) :=
  c4_failure_rollback_reason ⟨[bookA], false⟩ 1 .notOk "boom" (by decide)

/-- C5: when the remote delete succeeds but the reconciliation fetch
fails (non-ok response or network error), the collection keeps the
optimistic post-delete value, `isRefreshing` ends false, and the call
still resolves successfully. -/
theorem c5_reconciliation_failure_swallowed (s : ExplorerState) (id : Int) :
    handleDeleteBook s id .success .notOk
      = ({ books := optimisticRemove s.books id, isRefreshing := false }, .ok ())
    ∧ handleDeleteBook s id .success .networkError
      = ({ books := optimisticRemove s.books id, isRefreshing := false }, .ok ()) :=
  ⟨rfl, rfl⟩

/-- C6: the price filter is boundary-inclusive at both ends — any record
of the collection with `min <= price` and `price <= max` is retained by
the price stage, and a record with `price = 0` passes `priceRange = [0, 10]`. -/
theorem c6_price_filter_inclusive :
    (∀ (l : List IBook) (mn mx : Rat) (b : IBook), b ∈ l →
      mn ≤ b.price.getD 0 → b.price.getD 0 ≤ mx →
      b ∈ priceStage (some (mn, mx)) l)
    ∧ priceStage (some (0, 10)) [zeroPriceBook] = [zeroPriceBook] := by
  constructor
  · intro l mn mx b hb h1 h2
    simp only [priceStage]
    split
    · exact List.mem_filter.mpr ⟨hb, by simp [pricePasses, h1, h2]⟩
    · exact hb
  · decide

/-- Witness for C6 at the zero-priced record and range `[0, 10]`. -/
theorem c6_price_filter_inclusive_witness :
    zeroPriceBook ∈ priceStage (some (0, 10)) [zeroPriceBook] :=
  c6_price_filter_inclusive.1 [zeroPriceBook] 0 10 zeroPriceBook (by decide)
    (by decide) (by decide)

/-- C7: for a term that is nonempty after trimming and lowercasing, the
text stage retains exactly the records whose lowercased concatenation
`title + " " + author + " " + isbn` (fields defaulted to the empty
string) contains the term as a substring, in their original relative
order; for titles `["Alpha", "Beta", "alphabet"]` the term `"alph"`
retains `["Alpha", "alphabet"]`. -/
theorem c7_text_filter (l : List IBook) (q : String) (h : normalizeQuery q ≠ "") :
    textStage (normalizeQuery q) l
      = l.filter (fun b =>
          listContainsSub
            (jsToLower ((b.title.getD "") ++ " " ++ (b.author.getD "") ++ " " ++ (b.isbn.getD ""))).data
            (normalizeQuery q).data)
    ∧ (filteredBooks alphaBooks "alph" noFilters).map (fun b => b.title.getD "")
        = ["Alpha", "alphabet"] := by
  refine ⟨?_, by decide⟩
  simp only [textStage, if_neg h]
  rfl

/-- Witness for C7 at the `alphaBooks` collection and the term `"alph"`. -/
theorem c7_text_filter_witness :
    textStage (normalizeQuery "alph") alphaBooks
      = alphaBooks.filter (fun b =>
          listContainsSub
            (jsToLower ((b.title.getD "") ++ " " ++ (b.author.getD "") ++ " " ++ (b.isbn.getD ""))).data
            (normalizeQuery "alph").data)
    ∧ (filteredBooks alphaBooks "alph" noFilters).map (fun b => b.title.getD "")
        = ["Alpha", "alphabet"] :=
  c7_text_filter alphaBooks "alph" (by decide)

/-- C8: the sort stage is stable for every `sortBy` key and either
order — for each value of the sort key, the subsequence of records
carrying that key is unchanged by sorting, so records with tying keys
keep their original relative order. -/
theorem c8_sort_stability (so : Option SortOrder) (l : List IBook) :
    (∀ v : String, (sortStage (some .title) so l).filter (fun b => b.title.getD "" = v)
        = l.filter (fun b => b.title.getD "" = v))
    ∧ (∀ v : String, (sortStage (some .author) so l).filter (fun b => b.author.getD "" = v)
        = l.filter (fun b => b.author.getD "" = v))
    ∧ (∀ v : Rat, (sortStage (some .price) so l).filter (fun b => b.price.getD 0 = v)
        = l.filter (fun b => b.price.getD 0 = v))
    ∧ (∀ v : Rat, (sortStage (some .rating) so l).filter (fun b => b.rating.getD 0 = v)
        = l.filter (fun b => b.rating.getD 0 = v))
    ∧ (∀ v : Option Rat, (sortStage (some .date) so l).filter (fun b => dateValue b = v)
        = l.filter (fun b => dateValue b = v)) := by
  refine ⟨fun v => ?_, fun v => ?_, fun v => ?_, fun v => ?_, fun v => ?_⟩
  · apply jsSort_filter
    intro a b ha hb
    simp [bookCmp, of_decide_eq_true ha, of_decide_eq_true hb, localeCompare_self]
  · apply jsSort_filter
    intro a b ha hb
    simp [bookCmp, of_decide_eq_true ha, of_decide_eq_true hb, localeCompare_self]
  · apply jsSort_filter
    intro a b ha hb
    simp [bookCmp, of_decide_eq_true ha, of_decide_eq_true hb]
  · apply jsSort_filter
    intro a b ha hb
    simp [bookCmp, of_decide_eq_true ha, of_decide_eq_true hb]
  · apply jsSort_filter
    intro a b ha hb
    cases v with
    | none => simp [bookCmp, of_decide_eq_true ha, of_decide_eq_true hb]
    | some k => simp [bookCmp, of_decide_eq_true ha, of_decide_eq_true hb]

/-- C9: rapid term updates at times 0, 50 and 100 ms, all within the
300 ms debounce window, collapse to a single application of the final
value `"abc"`; a structured filter change is emitted to `onFilter` in the
same synchronous step that records it (no debounce). -/
theorem c9_debounce_collapse :
    debounceApply searchDebounceMs [(0, "a"), (50, "ab"), (100, "abc")] = [(400, "abc")]
    ∧ ∀ (fs : FilterOptions) (u : FilterUpdate),
        handleFilterChange fs u = (setFilter fs u, setFilter fs u) :=
  ⟨by decide, fun fs u => rfl⟩

/-- C10: a rating threshold of exactly 0 is falsy, so the rating stage is
skipped: it returns the collection unchanged (including records with no
rating), and the whole engine behaves identically to having no rating
filter at all. -/
theorem c10_zero_rating_threshold :
    (∀ l : List IBook, ratingStage (some 0) l = l)
    ∧ (∀ (books : List IBook) (q : String) (fs : FilterOptions),
        filteredBooks books q { fs with rating := some 0 }
          = filteredBooks books q { fs with rating := none }) :=
  ⟨fun l => rfl, fun books q fs => rfl⟩

end BookCatalog
